import Mathlib

/-!
Verification of the taskproc core: a shallow embedding of the task store,
the expression compiler, the view pipeline, the action log replay and the
view-storage serialization contract, translated from the C++ sources in
source/core and source/io, together with theorems settling the frozen
claims about them.

Strings are modelled by Lean String (byte-wise lexicographic order in the
C++ source corresponds to the character-wise lexicographic order here),
machine ints by Int (no arithmetic in the source approaches the int range).
-/

namespace Taskproc

-- ============================================================================
-- Data model (source/core/task.hpp)
-- ============================================================================

/-- A task record, translated from struct Task in source/core/task.hpp. -/
structure Task where
  id : Int
  title : String
  status : String
  priority : Int
  created_date : String
  description : Option String
  assignee : Option String
  due_date : Option String
  tags : List String
deriving DecidableEq

-- ============================================================================
-- Filter and sort specification types (source/core/database.hpp)
-- ============================================================================

/-- Comparison operators for filter expressions (enum class FilterOp). -/
inductive FilterOp where
  | Equal
  | NotEqual
  | GreaterThan
  | GreaterThanOrEqual
  | LessThan
  | LessThanOrEqual
deriving DecidableEq

/-- Field identifiers for filtering (enum class FilterField). -/
inductive FilterField where
  | Id
  | Title
  | Status
  | Priority
  | CreatedDate
  | DueDate
  | Assignee
  | Description
deriving DecidableEq

/-- A compiled filter specification (struct FilterSpec). -/
structure FilterSpec where
  field : FilterField
  op : FilterOp
  value : String
deriving DecidableEq

/-- Sort direction (enum class SortDirection). -/
inductive SortDirection where
  | Ascending
  | Descending
deriving DecidableEq

/-- Field identifiers for sorting (enum class SortField). -/
inductive SortField where
  | Id
  | Title
  | Status
  | Priority
  | CreatedDate
  | DueDate
deriving DecidableEq

/-- A compiled sort specification (struct SortSpec). -/
structure SortSpec where
  field : SortField
  direction : SortDirection
deriving DecidableEq

-- ============================================================================
-- View actions (source/core/view_action.hpp)
-- ============================================================================

/-- Domain-level view operation kind (enum class ViewOpType). -/
inductive ViewOpType where
  | Load
  | Filter
  | Sort
  | ResetFilters
  | FindByTag
deriving DecidableEq

/-- A recorded view action with its payload (struct ViewAction). -/
structure ViewAction where
  type : ViewOpType
  payload : String
deriving DecidableEq

namespace ViewOpType

/-- Translation of to_string(ViewOpType) in view_action.hpp. -/
def to_string : ViewOpType → String
  | .Load => "load"
  | .Filter => "filter"
  | .Sort => "sort"
  | .ResetFilters => "reset-filters"
  | .FindByTag => "find-by-tag"

end ViewOpType

/-- Translation of view_op_type_from_string in view_action.hpp. -/
def view_op_type_from_string (s : String) : Option ViewOpType :=
  if s = "load" then some .Load
  else if s = "filter" then some .Filter
  else if s = "sort" then some .Sort
  else if s = "reset-filters" then some .ResetFilters
  else if s = "find-by-tag" then some .FindByTag
  else none

-- ============================================================================
-- Expression compiler (source/core/expr_parser.cpp)
-- ============================================================================

namespace ExpressionParser

/-- Character class used by the trim lambda in parse_filter: the C++ code
trims exactly spaces and tabs (find_first_not_of of a space and a tab). -/
def isSpaceTab (c : Char) : Bool := c = ' ' || c = '\t'

/-- The trim lambda of parse_filter: strip leading and trailing spaces and
tabs; a string of only spaces and tabs becomes empty (the npos branch). -/
def trimST (cs : List Char) : List Char :=
  ((cs.dropWhile isSpaceTab).reverse.dropWhile isSpaceTab).reverse

/-- std::string_view::find of a multi-character needle: index of the first
position where the needle occurs as a contiguous substring, none when it
does not occur (npos). -/
def findSub (needle : List Char) : List Char → Option Nat
  | [] => if needle.isEmpty then some 0 else none
  | c :: rest =>
    if needle.isPrefixOf (c :: rest) then some 0
    else (findSub needle rest).map (· + 1)

/-- Translation of ExpressionParser::find_operator: try the two-character
operators first, in the order >=, <=, !=, then the single-character ones
in the order =, >, <. -/
def find_operator (cs : List Char) : Option (FilterOp × Nat) :=
  match findSub (">=".toList) cs with
  | some p => some (.GreaterThanOrEqual, p)
  | none =>
  match findSub ("<=".toList) cs with
  | some p => some (.LessThanOrEqual, p)
  | none =>
  match findSub ("!=".toList) cs with
  | some p => some (.NotEqual, p)
  | none =>
  match findSub ("=".toList) cs with
  | some p => some (.Equal, p)
  | none =>
  match findSub (">".toList) cs with
  | some p => some (.GreaterThan, p)
  | none =>
  match findSub ("<".toList) cs with
  | some p => some (.LessThan, p)
  | none => none

/-- Translation of ExpressionParser::parse_filter_field. -/
def parse_filter_field (cs : List Char) : Option FilterField :=
  if cs = "id".toList then some .Id
  else if cs = "title".toList then some .Title
  else if cs = "status".toList then some .Status
  else if cs = "priority".toList then some .Priority
  else if cs = "created_date".toList then some .CreatedDate
  else if cs = "due_date".toList then some .DueDate
  else if cs = "assignee".toList then some .Assignee
  else if cs = "description".toList then some .Description
  else none

/-- Translation of ExpressionParser::parse_sort_field. -/
def parse_sort_field (cs : List Char) : Option SortField :=
  if cs = "id".toList then some .Id
  else if cs = "title".toList then some .Title
  else if cs = "status".toList then some .Status
  else if cs = "priority".toList then some .Priority
  else if cs = "created_date".toList then some .CreatedDate
  else if cs = "due_date".toList then some .DueDate
  else none

/-- Translation of ExpressionParser::parse_filter: empty input fails, the
operator is located by find_operator, the field text before it and the
value text after it are trimmed of spaces and tabs, the field must be a
recognized field name, and the value is taken verbatim after trimming. -/
def parse_filter (expr : String) : Option FilterSpec :=
  let cs := expr.toList
  if cs.isEmpty then none
  else
    match find_operator cs with
    | none => none
    | some (op, pos) =>
      let oplen : Nat :=
        if op = .Equal || op = .GreaterThan || op = .LessThan then 1 else 2
      let field_str := trimST (cs.take pos)
      let value_str := trimST (cs.drop (pos + oplen))
      match parse_filter_field field_str with
      | none => none
      | some f => some ⟨f, op, String.mk value_str⟩

/-- Translation of ExpressionParser::parse_sort: empty input fails, the
text is split at the first space, the first token must be a recognized
sort field, the direction token desc or descending selects Descending and
every other token (including unknown ones, with a warning) selects
Ascending. -/
def parse_sort (expr : String) : Option SortSpec :=
  let cs := expr.toList
  if cs.isEmpty then none
  else
    let (field_str, direction_str) :=
      match findSub ([' ']) cs with
      | none => (cs, "asc".toList)
      | some p => (cs.take p, cs.drop (p + 1))
    match parse_sort_field field_str with
    | none => none
    | some f =>
      let dir : SortDirection :=
        if direction_str = "desc".toList || direction_str = "descending".toList
        then .Descending else .Ascending
      some ⟨f, dir⟩

end ExpressionParser

-- ============================================================================
-- String ordering (C++ std::string operator<)
-- ============================================================================

/-- C++ std::string operator< compares byte-wise lexicographically; on the
character sequence this is the character-code lexicographic order (UTF-8
byte order agrees with code-point order). -/
def charListLt : List Char → List Char → Bool
  | [], [] => false
  | [], _ :: _ => true
  | _ :: _, [] => false
  | c :: cs, d :: ds =>
    if c.toNat < d.toNat then true
    else if d.toNat < c.toNat then false
    else charListLt cs ds

/-- The order of C++ std::string operator< on String values. -/
def strLt (a b : String) : Bool := charListLt a.toList b.toList

theorem charListLt_asymm : ∀ {x y : List Char}, charListLt x y = true → charListLt y x = false
  | [], [], h => by simp [charListLt] at h
  | [], _ :: _, _ => by simp [charListLt]
  | _ :: _, [], h => by simp [charListLt] at h
  | c :: cs, d :: ds, h => by
    simp only [charListLt] at h ⊢
    rcases Nat.lt_trichotomy c.toNat d.toNat with hlt | heq | hgt
    · simp [hlt, Nat.not_lt.mpr (Nat.le_of_lt hlt), Nat.lt_irrefl]
    · simp [heq, Nat.lt_irrefl] at h ⊢
      exact charListLt_asymm h
    · simp [hgt, Nat.not_lt.mpr (Nat.le_of_lt hgt)] at h

theorem charListLt_negtrans :
    ∀ {x y z : List Char}, charListLt x y = false → charListLt y z = false →
      charListLt x z = false
  | [], [], _, _, h₂ => h₂
  | [], _ :: _, _, h₁, _ => by simp [charListLt] at h₁
  | _ :: _, [], [], _, _ => by simp [charListLt]
  | _ :: _, [], _ :: _, _, h₂ => by simp [charListLt] at h₂
  | _ :: _, _ :: _, [], _, _ => by simp [charListLt]
  | c :: cs, d :: ds, e :: es, h₁, h₂ => by
    simp only [charListLt] at h₁ h₂ ⊢
    rcases Nat.lt_trichotomy c.toNat d.toNat with hcd | hcd | hcd
    · simp [hcd] at h₁
    · rcases Nat.lt_trichotomy d.toNat e.toNat with hde | hde | hde
      · simp [hde] at h₂
      · have hce : c.toNat = e.toNat := hcd.trans hde
        simp [hcd, hde, hce, Nat.lt_irrefl] at h₁ h₂ ⊢
        exact charListLt_negtrans h₁ h₂
      · have hce : e.toNat < c.toNat := by omega
        simp [Nat.not_lt.mpr (Nat.le_of_lt hce), hce]
    · rcases Nat.lt_trichotomy d.toNat e.toNat with hde | hde | hde
      · simp [hde] at h₂
      · have hce : e.toNat < c.toNat := by omega
        simp [Nat.not_lt.mpr (Nat.le_of_lt hce), hce]
      · have hce : e.toNat < c.toNat := by omega
        simp [Nat.not_lt.mpr (Nat.le_of_lt hce), hce]

theorem strLt_asymm {a b : String} (h : strLt a b = true) : strLt b a = false :=
  charListLt_asymm h

theorem strLt_negtrans {a b c : String} (h₁ : strLt a b = false) (h₂ : strLt b c = false) :
    strLt a c = false :=
  charListLt_negtrans h₁ h₂

-- ============================================================================
-- Database (source/core/database.cpp)
-- ============================================================================

/-- The database state, translated from class Database in database.hpp:
the canonical store tasks_ is a std::map from int id to Task, modelled as
an association list in the iteration order of the map (ascending id), and
view_ is the current projection.  The view in C++ holds non-owning
pointers into the store; tasks are immutable while in the store, so the
view is modelled as the list of pointed-to task values.  The secondary
indices status_index_ and tag_index_ are derived data rebuilt in full on
load and read by no operation settled here, so they are not carried in the
state. -/
structure Database where
  tasks : List (Int × Task)
  view : List Task
deriving DecidableEq

namespace Database

/-- std::map::insert_or_assign: keep keys in ascending order, replacing
the value when the key is already present. -/
def mapInsertOrAssign (k : Int) (v : Task) : List (Int × Task) → List (Int × Task)
  | [] => [(k, v)]
  | (k₂, v₂) :: rest =>
    if k < k₂ then (k, v) :: (k₂, v₂) :: rest
    else if k = k₂ then (k, v) :: rest
    else (k₂, v₂) :: mapInsertOrAssign k v rest

/-- Translation of Database::reset_view: the view becomes every task of
the store in map iteration order (ascending id). -/
def reset_view (db : Database) : Database :=
  { db with view := db.tasks.map (·.2) }

/-- Translation of Database::load: clear everything, insert each incoming
task keyed by its id (insert_or_assign, later duplicates overwrite), then
reset the view; rebuild_indices touches only the derived indices. -/
def load (db : Database) (ts : List Task) : Database :=
  let m := ts.foldl (fun m t => mapInsertOrAssign t.id t m) []
  reset_view { db with tasks := m, view := [] }

/-- C++ std::stoi on the filter value: skip leading whitespace, read an
optional sign and then at least one decimal digit, returning the value of
the digit run; none models the std::invalid_argument throw when no digit
is found. -/
def cppStoi (s : String) : Option Int :=
  let cs := s.toList.dropWhile (fun c =>
    c = ' ' || c = '\t' || c = '\n' || c = '\x0b' || c = '\x0c' || c = '\r')
  let (sign, cs) : Int × List Char :=
    match cs with
    | '-' :: r => (-1, r)
    | '+' :: r => (1, r)
    | r => (1, r)
  match cs.takeWhile Char.isDigit with
  | [] => none
  | ds => some (sign * (ds.foldl (fun acc c => acc * 10 + (c.toNat - '0'.toNat)) 0 : Nat))

/-- Translation of Database::make_predicate.  The Priority case calls
std::stoi on the value and compares with the requested operator; a
non-numeric value makes std::stoi throw out of the filter (modelled as
matching no task, a branch no settled claim depends on).  Status, Title
and CreatedDate compare with = and != and their switch default returns
false for every other operator.  The default case of the outer switch
(Id, DueDate, Assignee, Description) returns the constant-true
predicate. -/
def make_predicate (filter : FilterSpec) : Task → Bool :=
  match filter.field with
  | .Priority => fun t =>
    match cppStoi filter.value with
    | some target =>
      match filter.op with
      | .Equal => t.priority = target
      | .NotEqual => t.priority ≠ target
      | .GreaterThanOrEqual => t.priority ≥ target
      | .LessThanOrEqual => t.priority ≤ target
      | .GreaterThan => t.priority > target
      | .LessThan => t.priority < target
    | none => false
  | .Status => fun t =>
    match filter.op with
    | .Equal => t.status = filter.value
    | .NotEqual => t.status ≠ filter.value
    | _ => false
  | .Title => fun t =>
    match filter.op with
    | .Equal => t.title = filter.value
    | .NotEqual => t.title ≠ filter.value
    | _ => false
  | .CreatedDate => fun t =>
    match filter.op with
    | .Equal => t.created_date = filter.value
    | .NotEqual => t.created_date ≠ filter.value
    | _ => false
  | _ => fun _ => true

/-- Translation of Database::make_comparator.  Priority, Title and Status
compare their field in the requested direction; the switch default
(reached for Id, CreatedDate and DueDate) compares by id. -/
def make_comparator (sort : SortSpec) : Task → Task → Bool :=
  match sort.field with
  | .Priority =>
    match sort.direction with
    | .Ascending => fun a b => decide (a.priority < b.priority)
    | .Descending => fun a b => decide (b.priority < a.priority)
  | .Title =>
    match sort.direction with
    | .Ascending => fun a b => strLt a.title b.title
    | .Descending => fun a b => strLt b.title a.title
  | .Status =>
    match sort.direction with
    | .Ascending => fun a b => strLt a.status b.status
    | .Descending => fun a b => strLt b.status a.status
  | _ =>
    match sort.direction with
    | .Ascending => fun a b => decide (a.id < b.id)
    | .Descending => fun a b => decide (b.id < a.id)

/-- Translation of Database::apply_filter: the erase-remove idiom deletes
from the view exactly the tasks failing the predicate, keeping the
survivors in order. -/
def apply_filter (db : Database) (filter : FilterSpec) : Database :=
  { db with view := db.view.filter (make_predicate filter) }

/-- Translation of Database::apply_sort: std::stable_sort with the strict
comparator comp produces the stable permutation of the view that is
sorted so that a later element is never comp-below an earlier one; that
is List.mergeSort with the total relation (le a b) = not (comp b a). -/
def apply_sort (db : Database) (sort : SortSpec) : Database :=
  { db with view := db.view.mergeSort (fun a b => !(make_comparator sort b a)) }

/-- Translation of Database::filter_by_tag: the function body in
database.cpp consists entirely of comments (an implementation sketch);
the compiled function performs no operation. -/
def filter_by_tag (db : Database) (_tag : String) : Database := db

/-- Translation of Database::filter_no_tags: the function body in
database.cpp consists entirely of comments; the compiled function
performs no operation. -/
def filter_no_tags (db : Database) : Database := db

/-- Translation of Database::overdue_count: the executable statement in
the body is return 0 (the remainder is an implementation sketch in
comments). -/
def overdue_count (_db : Database) (_today_iso : String) : Nat := 0

/-- Translation of one iteration of the loop of Database::replay_history:
Filter and Sort entries re-parse their payload and are skipped when the
parse fails, FindByTag calls filter_by_tag on the raw payload, ResetFilters
calls reset_view, and Load does nothing. -/
def replay_step (db : Database) (action : ViewAction) : Database :=
  match action.type with
  | .Filter =>
    match ExpressionParser.parse_filter action.payload with
    | some spec => db.apply_filter spec
    | none => db
  | .Sort =>
    match ExpressionParser.parse_sort action.payload with
    | some spec => db.apply_sort spec
    | none => db
  | .FindByTag => db.filter_by_tag action.payload
  | .ResetFilters => db.reset_view
  | .Load => db

/-- Translation of Database::replay_history: reset the view, then process
each action in order with replay_step. -/
def replay_history (db : Database) (actions : List ViewAction) : Database :=
  actions.foldl replay_step db.reset_view

end Database

-- ============================================================================
-- View storage (source/io/view_storage.cpp), at the document level
-- ============================================================================

/-- The durable action-log record: a document with a filepath field and a
history list of (type, payload) string pairs.  The JSON text encoding and
the temp-file-then-rename write performed by nlohmann::json and the
filesystem are external collaborators; persist and load are modelled at
the document level. -/
structure StorageDoc where
  filepath : String
  history : List (String × String)
deriving DecidableEq

namespace ViewStorage

/-- Translation of the document built by ViewStorage::persist: the source
path and, for each recorded action in order, an object with the
to_string of its type and its payload. -/
def persistDoc (path : String) (history : List ViewAction) : StorageDoc :=
  ⟨path, history.map (fun a => (a.type.to_string, a.payload))⟩

/-- Translation of the document reading performed by
ViewStorage::load_from_storage: take the filepath field, and for each
history element whose type string is recognized by
view_op_type_from_string, an action with that type and the payload field
(entries with unrecognized type strings are dropped). -/
def loadDoc (d : StorageDoc) : String × List ViewAction :=
  (d.filepath,
   d.history.filterMap (fun e => (view_op_type_from_string e.1).map (fun t => ⟨t, e.2⟩)))

end ViewStorage

-- ============================================================================
-- Reference definitions taken from the specification text, used to state
-- the divergence of stubbed source functions from their documented intent
-- ============================================================================

/-- The tag filter as the specification and the doc comment of
Database::filter_by_tag describe it: keep exactly the tasks whose tag
list contains the tag. -/
def filterByTagSpec (db : Database) (tag : String) : Database :=
  { db with view := db.view.filter (fun t => t.tags.contains tag) }

/-- The no-tag filter as the specification describes it: keep exactly the
tasks whose tag list is empty. -/
def filterNoTagsSpec (db : Database) : Database :=
  { db with view := db.view.filter (fun t => t.tags.isEmpty) }

/-- The overdue count as the specification and the doc comment of
Database::overdue_count describe it: tasks of the view with a present due
date lexicographically below the supplied today string and status other
than done. -/
def overdueCountSpec (db : Database) (today_iso : String) : Nat :=
  (db.view.filter (fun t =>
    match t.due_date with
    | some d => strLt d today_iso && !(t.status = "done")
    | none => false)).length

/-- Sortedness of a view by created_date ascending, as the specification
describes the result of sorting by that field. -/
def sortedByCreatedDate (l : List Task) : Prop :=
  List.Pairwise (fun a b => strLt b.created_date a.created_date = false) l

-- ============================================================================
-- Concrete example data used by counterexamples and witnesses
-- ============================================================================

/-- Example task: id 1, tagged urgent, created later, overdue due date. -/
def exTask1 : Task :=
  ⟨1, "Fix login bug", "todo", 3, "2024-02-01", none, none, some "2024-01-01", ["urgent"]⟩

/-- Example task: id 2, no tags, created earlier, no due date. -/
def exTask2 : Task :=
  ⟨2, "Write docs", "todo", 3, "2024-01-01", none, none, none, []⟩

/-- Example database holding the two example tasks, with the full view. -/
def exDb : Database := ⟨[(1, exTask1), (2, exTask2)], [exTask1, exTask2]⟩

-- ============================================================================
-- Helper lemmas
-- ============================================================================

theorem replay_step_tasks (db : Database) (a : ViewAction) :
    (Database.replay_step db a).tasks = db.tasks := by
  rcases a with ⟨ty, p⟩
  cases ty
  · rfl
  · simp only [Database.replay_step]
    cases ExpressionParser.parse_filter p <;> rfl
  · simp only [Database.replay_step]
    cases ExpressionParser.parse_sort p <;> rfl
  · rfl
  · rfl

theorem replay_foldl_tasks :
    ∀ (l : List ViewAction) (db : Database),
      (l.foldl Database.replay_step db).tasks = db.tasks
  | [], _ => rfl
  | a :: l, db => by
    rw [List.foldl_cons, replay_foldl_tasks l, replay_step_tasks]

theorem view_op_round_trip (t : ViewOpType) :
    view_op_type_from_string t.to_string = some t := by
  cases t <;> rfl

theorem findSub_isSome_of_matches {needle : List Char} :
    ∀ (hay : List Char) (i : Nat), needle.isPrefixOf (hay.drop i) = true →
      (ExpressionParser.findSub needle hay).isSome = true
  | [], i, h => by
    rw [List.drop_nil] at h
    cases needle with
    | nil => simp [ExpressionParser.findSub]
    | cons c cs => simp [List.isPrefixOf] at h
  | c :: rest, i, h => by
    unfold ExpressionParser.findSub
    by_cases hp : needle.isPrefixOf (c :: rest) = true
    · simp [hp]
    · cases i with
      | zero => rw [List.drop_zero] at h; exact absurd h hp
      | succ j =>
        rw [List.drop_succ_cons] at h
        have hrec := findSub_isSome_of_matches rest j h
        simp only [Bool.not_eq_true] at hp
        simp [hp, Option.isSome_map, hrec]

theorem reset_view_congr {d₁ d₂ : Database} (h : d₁.tasks = d₂.tasks) :
    d₁.reset_view = d₂.reset_view := by
  simp only [Database.reset_view]
  rw [h]

theorem make_comparator_asymm (s : SortSpec) :
    ∀ x y, Database.make_comparator s x y = true → Database.make_comparator s y x = false := by
  rcases s with ⟨f, d⟩
  cases f <;> cases d <;> intro x y h <;>
    simp only [Database.make_comparator] at h ⊢ <;>
    first
      | (simp only [decide_eq_true_eq] at h
         simp only [decide_eq_false_iff_not]
         omega)
      | exact strLt_asymm h

theorem make_comparator_negtrans (s : SortSpec) :
    ∀ x y z, Database.make_comparator s x y = false → Database.make_comparator s y z = false →
      Database.make_comparator s x z = false := by
  rcases s with ⟨f, d⟩
  cases f <;> cases d <;> intro x y z h₁ h₂ <;>
    simp only [Database.make_comparator] at h₁ h₂ ⊢ <;>
    first
      | (simp only [decide_eq_false_iff_not] at h₁ h₂
         simp only [decide_eq_false_iff_not]
         omega)
      | exact strLt_negtrans h₁ h₂
      | exact strLt_negtrans h₂ h₁

-- ============================================================================
-- Claim theorems
-- ============================================================================

/-- Claim C1: the claim says filter_by_tag narrows the view to the tasks
whose tag list contains the tag and filter_no_tags to the tasks with no
tags.  The compiled bodies of both functions are empty, so on the example
database the view keeps a task without the urgent tag after
filter_by_tag and keeps a tagged task after filter_no_tags, while the
behaviour documented in the spec and in the source doc comments removes
them. -/
theorem filter_by_tag_stub_diverges :
    (exDb.filter_by_tag "urgent").view = [exTask1, exTask2] ∧
    exTask2.tags.contains "urgent" = false ∧
    (filterByTagSpec exDb "urgent").view = [exTask1] ∧
    exDb.filter_no_tags.view = [exTask1, exTask2] ∧
    exTask1.tags.isEmpty = false ∧
    (filterNoTagsSpec exDb).view = [exTask2] :=
  ⟨rfl, by decide, by decide, rfl, by decide, by decide⟩

/-- Claim C2: the claim says overdue_count returns the number of view
tasks with a present due date lexicographically below the supplied today
string and status other than done.  The compiled body returns 0 for
every input; on the example database with one such overdue task the
documented count is 1 while the code returns 0. -/
theorem overdue_count_stub_diverges :
    (∀ (db : Database) (today : String), db.overdue_count today = 0) ∧
    exDb.overdue_count "2025-01-01" = 0 ∧
    overdueCountSpec exDb "2025-01-01" = 1 :=
  ⟨fun _ _ => rfl, rfl, by decide⟩

/-- Claim C3, counterexample: parse_filter accepts the ordering operator
on the title field and returns a FilterSpec, contradicting the claim that
such inputs are rejected at compile time with a ParseError. -/
theorem parse_filter_accepts_title_gt :
    ExpressionParser.parse_filter "title>x" =
      some ⟨.Title, .GreaterThan, "x"⟩ := by decide

/-- Claim C3, amended: for title, status and created_date with an
ordering operator, parse_filter accepts the expression (no compile-time
rejection); the pairing is instead neutralised at apply time, where the
predicate returns false for every task, so apply_filter empties the
view. -/
theorem string_field_ordering_ops_rejected_at_apply :
    ∀ (fld : FilterField) (op : FilterOp) (v : String) (db : Database) (t : Task),
      (fld = .Title ∨ fld = .Status ∨ fld = .CreatedDate) →
      (op = .GreaterThan ∨ op = .GreaterThanOrEqual ∨
        op = .LessThan ∨ op = .LessThanOrEqual) →
      Database.make_predicate ⟨fld, op, v⟩ t = false ∧
      (db.apply_filter ⟨fld, op, v⟩).view = [] := by
  intro fld op v db t hf ho
  have hpred : ∀ u : Task, Database.make_predicate ⟨fld, op, v⟩ u = false := by
    intro u
    rcases hf with rfl | rfl | rfl <;> rcases ho with rfl | rfl | rfl | rfl <;> rfl
  refine ⟨hpred t, ?_⟩
  simp only [Database.apply_filter, List.filter_eq_nil_iff]
  intro a _
  simp [hpred a]

/-- Witness for the amended claim C3 at the title field, the greater-than
operator and a concrete task and database. -/
theorem string_field_ordering_ops_rejected_at_apply_witness :
    Database.make_predicate ⟨.Title, .GreaterThan, "x"⟩ exTask1 = false ∧
    (exDb.apply_filter ⟨.Title, .GreaterThan, "x"⟩).view = [] :=
  string_field_ordering_ops_rejected_at_apply .Title .GreaterThan "x" exDb exTask1
    (Or.inl rfl) (Or.inl rfl)

/-- Claim C4: the claim says apply_sort on created_date orders the view
by the created_date strings.  The comparator built by make_comparator
falls through to the id comparison for created_date (and due_date), so on
the example database, where the id order is the reverse of the
created_date order, sorting by created_date ascending leaves the view in
id order, which is not sorted by created_date. -/
theorem apply_sort_created_date_ignores_dates :
    (exDb.apply_sort ⟨.CreatedDate, .Ascending⟩).view = [exTask1, exTask2] ∧
    strLt exTask2.created_date exTask1.created_date = true ∧
    ¬ sortedByCreatedDate [exTask1, exTask2] := by
  refine ⟨List.mergeSort_of_sorted (by decide), by decide, ?_⟩
  simp only [sortedByCreatedDate]
  decide

/-- Claim C5: find_operator scans longest-match-first: whenever the
two-character operator of greater-or-equal occurs anywhere in the input,
it is the operator selected (never a bare greater-than), and on the
scenario input the parse yields GreaterThanOrEqual with value 3. -/
theorem find_operator_longest_match :
    (∀ (expr : String),
      (∃ i, ((">=".toList).isPrefixOf (expr.toList.drop i)) = true) →
      ∃ p, ExpressionParser.find_operator expr.toList = some (.GreaterThanOrEqual, p)) ∧
    ExpressionParser.parse_filter "priority>=3" =
      some ⟨.Priority, .GreaterThanOrEqual, "3"⟩ := by
  constructor
  · rintro expr ⟨i, hi⟩
    have h := findSub_isSome_of_matches expr.toList i hi
    obtain ⟨p, hsome⟩ := Option.isSome_iff_exists.mp h
    refine ⟨p, ?_⟩
    unfold ExpressionParser.find_operator
    rw [hsome]
  · decide

/-- Witness for claim C5 at the scenario input, where the
greater-or-equal operator occurs at position 8. -/
theorem find_operator_longest_match_witness :
    ∃ p, ExpressionParser.find_operator ("priority>=3".toList) =
      some (.GreaterThanOrEqual, p) :=
  find_operator_longest_match.1 "priority>=3" ⟨8, by decide⟩

/-- Claim C6: replay_history resets the view and then applies the log in
order; a Filter or Sort entry whose payload fails to parse is skipped
(replay of the rest is exactly replay without that entry), a Load entry
is a no-op, a ResetFilters entry makes the result that of replaying only
the following entries, and a FindByTag step applies filter_by_tag to the
raw payload. -/
theorem replay_history_skips_and_continues :
    ∀ (db : Database) (l₁ l₂ : List ViewAction) (p : String),
      (db.replay_history [] = db.reset_view) ∧
      (ExpressionParser.parse_filter p = none →
        db.replay_history (l₁ ++ ⟨.Filter, p⟩ :: l₂) = db.replay_history (l₁ ++ l₂)) ∧
      (ExpressionParser.parse_sort p = none →
        db.replay_history (l₁ ++ ⟨.Sort, p⟩ :: l₂) = db.replay_history (l₁ ++ l₂)) ∧
      (db.replay_history (l₁ ++ ⟨.Load, p⟩ :: l₂) = db.replay_history (l₁ ++ l₂)) ∧
      (db.replay_history (l₁ ++ ⟨.ResetFilters, p⟩ :: l₂) = db.replay_history l₂) ∧
      (∀ db₂ : Database, Database.replay_step db₂ ⟨.FindByTag, p⟩ = db₂.filter_by_tag p) := by
  intro db l₁ l₂ p
  refine ⟨rfl, ?_, ?_, ?_, ?_, fun db₂ => rfl⟩
  · intro hp
    simp [Database.replay_history, List.foldl_append, Database.replay_step, hp]
  · intro hp
    simp [Database.replay_history, List.foldl_append, Database.replay_step, hp]
  · simp [Database.replay_history, List.foldl_append, Database.replay_step]
  · simp only [Database.replay_history, List.foldl_append, List.foldl_cons]
    congr 1
    show (List.foldl Database.replay_step db.reset_view l₁).reset_view = db.reset_view
    have htasks : (List.foldl Database.replay_step db.reset_view l₁).tasks = db.tasks :=
      replay_foldl_tasks l₁ db.reset_view
    exact reset_view_congr htasks

/-- Witness for claim C6: a filter entry and a sort entry with an empty
(unparseable) payload are each skipped on the example database. -/
theorem replay_history_skips_and_continues_witness :
    ExpressionParser.parse_filter "" = none ∧
    exDb.replay_history [⟨.Filter, ""⟩] = exDb.replay_history [] ∧
    ExpressionParser.parse_sort "" = none ∧
    exDb.replay_history [⟨.Sort, ""⟩] = exDb.replay_history [] :=
  ⟨by decide, (replay_history_skips_and_continues exDb [] [] "").2.1 (by decide),
   by decide, (replay_history_skips_and_continues exDb [] [] "").2.2.1 (by decide)⟩

/-- Claim C7: persisting the source path and the in-memory log and then
loading the resulting durable record on a fresh instance reproduces the
same path and the same ordered list of entries.  Every ViewOpType value
has a recognized type string, so no entry is dropped on read. -/
theorem persist_load_round_trip :
    ∀ (path : String) (history : List ViewAction),
      ViewStorage.loadDoc (ViewStorage.persistDoc path history) = (path, history) := by
  intro path history
  simp only [ViewStorage.loadDoc, ViewStorage.persistDoc, List.filterMap_map]
  congr 1
  induction history with
  | nil => rfl
  | cons a l ih =>
    simp only [List.filterMap_cons, Function.comp_apply, view_op_round_trip, ih]
    rfl

/-- Claim C8: apply_sort never changes the number of tasks in the view,
the result is a permutation of the prior view, and the sort is stable: a
pair of view tasks the comparator regards as tied keeps its prior
relative order. -/
theorem apply_sort_perm_and_stable :
    ∀ (db : Database) (sort : SortSpec),
      ((db.apply_sort sort).view.length = db.view.length) ∧
      ((db.apply_sort sort).view.Perm db.view) ∧
      (∀ a b, [a, b].Sublist db.view →
        Database.make_comparator sort a b = false →
        Database.make_comparator sort b a = false →
        [a, b].Sublist (db.apply_sort sort).view) := by
  intro db sort
  refine ⟨List.length_mergeSort db.view, List.mergeSort_perm db.view _, ?_⟩
  intro a b hsub h₁ h₂
  apply List.pair_sublist_mergeSort
  · intro x y z hxy hyz
    simp only [Bool.not_eq_true'] at hxy hyz ⊢
    exact make_comparator_negtrans sort z y x hyz hxy
  · intro x y
    cases hcase : Database.make_comparator sort y x
    · simp [hcase]
    · simp [make_comparator_asymm sort y x hcase]
  · simp [h₂]
  · exact hsub

/-- Witness for claim C8 on the example database, sorting by priority
ascending: the two example tasks have equal priority, so the tied pair
keeps its order in the sorted view. -/
theorem apply_sort_perm_and_stable_witness :
    ([exTask1, exTask2].Sublist exDb.view) ∧
    Database.make_comparator ⟨.Priority, .Ascending⟩ exTask1 exTask2 = false ∧
    Database.make_comparator ⟨.Priority, .Ascending⟩ exTask2 exTask1 = false ∧
    [exTask1, exTask2].Sublist ((exDb.apply_sort ⟨.Priority, .Ascending⟩).view) :=
  ⟨by decide, by decide, by decide,
   (apply_sort_perm_and_stable exDb ⟨.Priority, .Ascending⟩).2.2 exTask1 exTask2
     (by decide) (by decide) (by decide)⟩

/-- Claim C9: every view operation (apply_filter, apply_sort,
filter_by_tag, filter_no_tags, reset_view, and whole replays) leaves the
canonical store untouched: the tasks map, with every field of every
stored task and hence the total count, is identical before and after. -/
theorem view_ops_preserve_store :
    ∀ (db : Database) (f : FilterSpec) (s : SortSpec) (tag : String)
      (acts : List ViewAction),
      (db.apply_filter f).tasks = db.tasks ∧
      (db.apply_sort s).tasks = db.tasks ∧
      (db.filter_by_tag tag).tasks = db.tasks ∧
      db.filter_no_tags.tasks = db.tasks ∧
      db.reset_view.tasks = db.tasks ∧
      (db.replay_history acts).tasks = db.tasks :=
  fun db _ _ _ acts =>
    ⟨rfl, rfl, rfl, rfl, rfl, replay_foldl_tasks acts db.reset_view⟩

/-- Claim C10: a FilterSpec whose field is Id, DueDate, Assignee or
Description reaches the default branch of make_predicate, whose predicate
holds for every task, so apply_filter leaves the database (and in
particular the view) exactly unchanged. -/
theorem inert_field_filter_identity :
    ∀ (db : Database) (fld : FilterField) (op : FilterOp) (v : String),
      (fld = .Id ∨ fld = .DueDate ∨ fld = .Assignee ∨ fld = .Description) →
      db.apply_filter ⟨fld, op, v⟩ = db := by
  intro db fld op v h
  rcases h with rfl | rfl | rfl | rfl <;>
    simp [Database.apply_filter, Database.make_predicate]

/-- Witness for claim C10 at the Id field with a greater-than operator on
the example database. -/
theorem inert_field_filter_identity_witness :
    exDb.apply_filter ⟨.Id, .GreaterThan, "0"⟩ = exDb :=
  inert_field_filter_identity exDb .Id .GreaterThan "0" (Or.inl rfl)

end Taskproc
